import Mathlib

/-!
Shallow embedding of the church_database_bot repository
(`app/sessions.py`, `app/sheets.py`, `app/auth.py`, `app/utils.py`,
selected handlers of `app/bot.py`), with theorems checking the
natural-language specification against the code.

Python dicts that preserve insertion order are modelled as association
lists; `time.time()` is modelled as an integer number of seconds;
Python `str` cell values are Lean `String`s.
-/

/-- Association-list lookup: value of the first pair whose key matches
(models Python `dict[k]` / `k in dict`). -/
def assocGet? {κ α : Type} [DecidableEq κ] (l : List (κ × α)) (k : κ) : Option α :=
  (l.find? (fun p => p.1 = k)).map Prod.snd

/-- Association-list update: replace the first binding of `k`, or append a
new binding at the end (models Python `dict[k] = v`, which keeps insertion
order and appends new keys at the end). -/
def assocSet {κ α : Type} [DecidableEq κ] (l : List (κ × α)) (k : κ) (v : α) :
    List (κ × α) :=
  match l with
  | [] => [(k, v)]
  | p :: rest => if p.1 = k then (k, v) :: rest else p :: assocSet rest k v

/-- Association-list deletion of every binding of `k`
(models Python `del dict[k]`). -/
def assocErase {κ α : Type} [DecidableEq κ] (l : List (κ × α)) (k : κ) :
    List (κ × α) :=
  l.filter (fun p => ¬ p.1 = k)

theorem assocGet?_set_same {κ α : Type} [DecidableEq κ]
    (l : List (κ × α)) (k : κ) (v : α) : assocGet? (assocSet l k v) k = some v := by
  induction l with
  | nil => simp [assocGet?, assocSet, List.find?]
  | cons p rest ih =>
    by_cases h : p.1 = k
    · simp [assocGet?, assocSet, h, List.find?]
    · simp only [assocSet, if_neg h]
      simpa [assocGet?, List.find?, h] using ih

/-- A row of a sheet, as `worksheet.get_all_values` returns it: a list of
string cells. -/
abbrev Row := List String

/-- A person entry built by `_show_people_by_letter`
(`{'text': ..., 'row': i, 'display': ...}`). -/
structure PersonEntry where
  text : String
  row : Nat
  display : String
deriving DecidableEq, Repr

/-- A session dict, with the fields created by
`SessionManager._create_new_session`. -/
structure Session where
  state : String
  mode : Option String
  draft : List (String × String)
  step : Option String
  lastLetter : Option String
  peopleList : List PersonEntry
  viewingRow : Option Int
  editingRow : Option Int
  geminiQuestion : Option String
  userId : Option Int
  lastAccess : Int
  createdAt : String
deriving DecidableEq, Repr

/-- `SessionManager._create_new_session`: the fresh default session.
`now` models `time.time()`, `nowIso` the `datetime.now().isoformat()`
string. -/
def createNewSession (now : Int) (nowIso : String) : Session :=
  { state := "IDLE"
    mode := none
    draft := []
    step := none
    lastLetter := none
    peopleList := []
    viewingRow := none
    editingRow := none
    geminiQuestion := none
    userId := none
    lastAccess := now
    createdAt := nowIso }

/-- The session store: `SessionManager._sessions`, a dict keyed by chat id. -/
abbrev SessionStore := List (Int × Session)

/-- `SessionManager.get_session`: return the stored session when its idle
time is strictly below `timeout` (stamping `last_access := now`), otherwise
delete it and return a freshly defaulted session.  `timeout` models
`settings.session_timeout.total_seconds()`. -/
def get_session (timeout now : Int) (nowIso : String) (store : SessionStore)
    (chatId : Int) : Session × SessionStore :=
  match assocGet? store chatId with
  | some s =>
    if now - s.lastAccess < timeout then
      let s' := { s with lastAccess := now }
      (s', assocSet store chatId s')
    else
      let n := createNewSession now nowIso
      (n, assocSet (assocErase store chatId) chatId n)
  | none =>
    let n := createNewSession now nowIso
    (n, assocSet store chatId n)

/-- `SessionManager.save_session`: store the session, stamping
`last_access := now`. -/
def save_session (now : Int) (store : SessionStore) (chatId : Int)
    (s : Session) : SessionStore :=
  assocSet store chatId { s with lastAccess := now }

/-- `SessionManager.clear_session`: delete the stored session, if any. -/
def clear_session (store : SessionStore) (chatId : Int) : SessionStore :=
  assocErase store chatId

/-- `SessionManager.cleanup_expired_sessions`: delete every session whose
idle time strictly exceeds `timeout` (condition
`current_time - last_access > timeout`). -/
def cleanup_expired_sessions (timeout now : Int) (store : SessionStore) :
    SessionStore :=
  store.filter (fun p => ¬ (now - p.2.lastAccess > timeout))

theorem assocGet?_filter {κ α : Type} [DecidableEq κ]
    (l : List (κ × α)) (k : κ) (v : α) (p : κ × α → Bool)
    (h : assocGet? l k = some v) (hp : p (k, v) = true) :
    assocGet? (l.filter p) k = some v := by
  induction l with
  | nil => simp [assocGet?] at h
  | cons q rest ih =>
    by_cases hk : q.1 = k
    · have hv : q.2 = v := by
        simpa [assocGet?, List.find?, hk] using h
      have hq : q = (k, v) := by
        cases q; simp_all
      subst hq
      simp [List.filter, hp, assocGet?, List.find?]
    · have h' : assocGet? rest k = some v := by
        simpa [assocGet?, List.find?, hk] using h
      by_cases hkeep : p q = true
      · simpa [List.filter, hkeep, assocGet?, List.find?, hk] using ih h'
      · simp only [Bool.not_eq_true] at hkeep
        simpa [List.filter, hkeep] using ih h'

/-- Demo data for session-store witnesses: a stale non-default session. -/
def demoOldSession : Session :=
  { createNewSession 0 "2026-01-01T00:00:00" with
    state := "VIEWING_CARD", draft := [("Имя", "Иван")], lastAccess := 0 }

/-- Demo store holding `demoOldSession` under chat id 7. -/
def demoStore : SessionStore := [(7, demoOldSession)]

/-- C2: for every conversation id whose stored session has been idle at
least the configured timeout, `get_session` discards it and returns the
freshly defaulted session (state `IDLE`, empty draft, none of the previous
contents), and every `get_session` stamps `last_access` to the current
time on the returned session. -/
theorem get_session_timeout_resets (timeout now : Int) (nowIso : String)
    (store : SessionStore) (chatId : Int) (s : Session)
    (hs : assocGet? store chatId = some s)
    (hexp : timeout ≤ now - s.lastAccess) :
    (get_session timeout now nowIso store chatId).1 = createNewSession now nowIso ∧
    (get_session timeout now nowIso store chatId).1.state = "IDLE" ∧
    (get_session timeout now nowIso store chatId).1.draft = [] ∧
    (∀ (store2 : SessionStore) (cid : Int),
      (get_session timeout now nowIso store2 cid).1.lastAccess = now) := by
  have hlt : ¬ (now - s.lastAccess < timeout) := by omega
  refine ⟨?_, ?_, ?_, ?_⟩
  · simp [get_session, hs, hlt]
  · simp [get_session, hs, hlt, createNewSession]
  · simp [get_session, hs, hlt, createNewSession]
  · intro store2 cid
    rcases h2 : assocGet? store2 cid with _ | s2
    · simp [get_session, h2, createNewSession]
    · by_cases hlt2 : now - s2.lastAccess < timeout
      · simp [get_session, h2, hlt2]
      · simp [get_session, h2, hlt2, createNewSession]

/-- Witness for C2 at a concrete expired session (idle exactly 1800 s with
timeout 1800 s). -/
theorem get_session_timeout_resets_witness :
    (get_session 1800 1800 "t1" demoStore 7).1 = createNewSession 1800 "t1" ∧
    (get_session 1800 1800 "t1" demoStore 7).1.state = "IDLE" ∧
    (get_session 1800 1800 "t1" demoStore 7).1.draft = [] ∧
    (∀ (store2 : SessionStore) (cid : Int),
      (get_session 1800 1800 "t1" store2 cid).1.lastAccess = 1800) :=
  get_session_timeout_resets 1800 1800 "t1" demoStore 7 demoOldSession
    (by decide) (by decide)

/-- C10: at the exact timeout boundary the two expiry paths disagree: a
session idle exactly `timeout` is reset by `get_session` (keep condition is
strict less-than) yet survives `cleanup_expired_sessions` (removal
condition is strict greater-than). -/
theorem session_timeout_boundary (timeout now : Int) (nowIso : String)
    (store : SessionStore) (chatId : Int) (s : Session)
    (hs : assocGet? store chatId = some s)
    (hb : now - s.lastAccess = timeout) :
    (get_session timeout now nowIso store chatId).1 = createNewSession now nowIso ∧
    assocGet? (cleanup_expired_sessions timeout now store) chatId = some s := by
  have hlt : ¬ (now - s.lastAccess < timeout) := by omega
  constructor
  · simp [get_session, hs, hlt]
  · apply assocGet?_filter _ _ _ _ hs
    simp only [decide_eq_true_eq]
    omega

/-- Witness for C10 at a concrete boundary session (idle exactly 1800 s
with timeout 1800 s). -/
theorem session_timeout_boundary_witness :
    (get_session 1800 1800 "t2" demoStore 7).1 = createNewSession 1800 "t2" ∧
    assocGet? (cleanup_expired_sessions 1800 1800 demoStore) 7 = some demoOldSession :=
  session_timeout_boundary 1800 1800 "t2" demoStore 7 demoOldSession
    (by decide) (by decide)

theorem assocGet?_set_ne {κ α : Type} [DecidableEq κ]
    (l : List (κ × α)) (k k' : κ) (v : α) (h : k' ≠ k) :
    assocGet? (assocSet l k' v) k = assocGet? l k := by
  induction l with
  | nil => simp [assocGet?, assocSet, List.find?, h]
  | cons p rest ih =>
    by_cases hp : p.1 = k'
    · have hpk : ¬ p.1 = k := by rw [hp]; exact h
      simp [assocSet, hp, assocGet?, List.find?, h, hpk]
    · simp only [assocSet, if_neg hp]
      by_cases hpk : p.1 = k
      · simp [assocGet?, List.find?, hpk]
      · simpa [assocGet?, List.find?, hpk] using ih

/-- A raw cell value handed to `append_row`/`update_row` (Python `Any`):
either already a string or an integer (ids, counters).  `Val.str` models
Python `str(x)`. -/
inductive Val where
  | s (v : String)
  | i (v : Int)
deriving DecidableEq, Repr

/-- Python `str(x)` on a cell value. -/
def Val.str : Val → String
  | .s v => v
  | .i v => toString v

/-- The state of `GoogleSheetsClient`: the remote spreadsheet (one table
of string rows per worksheet title, `sheet1` identified with the
"MainSheet" key exactly as the code's cache keys do), the in-memory
`_cache`, and a counter of remote full-table fetches
(`worksheet.get_all_values` calls) used to state "no remote re-fetch". -/
structure SheetsState where
  remote : List (String × List Row)
  cache : List (String × List Row)
  fetches : Nat
deriving DecidableEq, Repr

/-- The cache key: `worksheet_title if worksheet_title else "MainSheet"`. -/
def cacheKey (title : Option String) : String := title.getD "MainSheet"

/-- The remote table under a key (`worksheet.get_all_values`); a missing
worksheet is created empty by `get_worksheet`, hence the `[]` default. -/
def remoteTable (s : SheetsState) (key : String) : List Row :=
  (assocGet? s.remote key).getD []

/-- `GoogleSheetsClient.refresh_cache`: with a title, re-fetch that one
worksheet into the cache; with `None`, re-fetch the three known worksheets
"MainSheet", "Users", "AccessLog". -/
def refresh_cache (title : Option String) (s : SheetsState) : SheetsState :=
  match title with
  | some t =>
    { s with cache := assocSet s.cache t (remoteTable s t), fetches := s.fetches + 1 }
  | none =>
    { s with
      cache := assocSet (assocSet
          (assocSet s.cache "MainSheet" (remoteTable s "MainSheet"))
          "Users" (remoteTable s "Users"))
        "AccessLog" (remoteTable s "AccessLog")
      fetches := s.fetches + 3 }

/-- `GoogleSheetsClient.get_all_data`: on a cache miss populate the cache
via `refresh_cache`, then return the cached snapshot. -/
def get_all_data (title : Option String) (s : SheetsState) :
    List Row × SheetsState :=
  let key := cacheKey title
  let s' := if (assocGet? s.cache key).isSome then s else refresh_cache title s
  ((assocGet? s'.cache key).getD [], s')

/-- `GoogleSheetsClient.get_headers`: first row of `get_all_data`, or `[]`
if the table is empty. -/
def get_headers (title : Option String) (s : SheetsState) : Row × SheetsState :=
  let r := get_all_data title s
  (r.1.headD [], r.2)

/-- `GoogleSheetsClient.append_row`: send the row to the remote worksheet,
then append a stringified copy to the cached table, or fall back to
`refresh_cache` when the table is not cached; return the cached row
count. -/
def append_row (data : List Val) (title : Option String) (s : SheetsState) :
    Nat × SheetsState :=
  let key := cacheKey title
  let row := data.map Val.str
  let s1 := { s with remote := assocSet s.remote key (remoteTable s key ++ [row]) }
  let s2 :=
    match assocGet? s1.cache key with
    | some t => { s1 with cache := assocSet s1.cache key (t ++ [row]) }
    | none => refresh_cache title s1
  (((assocGet? s2.cache key).getD []).length, s2)

/-- Effect of `worksheet.update("A{n}", [data])` on the remote table:
overwrite the 1-based row `n`, growing the grid with empty rows when `n`
lies beyond the current end (non-positive `n` is an invalid range and is
modelled as no effect). -/
def setRow1Based (t : List Row) (n : Int) (row : Row) : List Row :=
  if 1 ≤ n then
    let idx := (n - 1).toNat
    if idx < t.length then t.set idx row
    else t ++ List.replicate (idx - t.length) [] ++ [row]
  else t

/-- `GoogleSheetsClient.update_row`: write the row remotely at the 1-based
`rowNumber`; then, if the table is cached and `0 <= rowNumber - 1 < len`,
overwrite the cached row in place; if the table is cached but the index is
out of bounds, the cache is left untouched; only when the table is not
cached at all does it fall back to `refresh_cache`. -/
def update_row (rowNumber : Int) (data : List Val) (title : Option String)
    (s : SheetsState) : SheetsState :=
  let key := cacheKey title
  let row := data.map Val.str
  let s1 := { s with remote := assocSet s.remote key (setRow1Based (remoteTable s key) rowNumber row) }
  match assocGet? s1.cache key with
  | some t =>
    let idx := rowNumber - 1
    if 0 ≤ idx ∧ idx < (t.length : Int) then
      { s1 with cache := assocSet s1.cache key (t.set idx.toNat row) }
    else s1
  | none => refresh_cache title s1

/-- Effect of writing the single cell `(1, j)` (1-based column `j`) into a
row, as `worksheet.update_cells([cell])` does: overwrite in place, or grow
the row with empty cells when `j` lies beyond its end. -/
def setCell1Based (r : Row) (j : Nat) (v : String) : Row :=
  if j = 0 then r
  else if j ≤ r.length then r.set (j - 1) v
  else r ++ List.replicate (j - 1 - r.length) "" ++ [v]

/-- Writing the header cell `(1, j)` into a remote table (an empty sheet
gains a first row). -/
def setHeaderCell (t : List Row) (j : Nat) (v : String) : List Row :=
  match t with
  | [] => [setCell1Based [] j v]
  | h :: rest => setCell1Based h j v :: rest

/-- `GoogleSheetsClient.add_column`: no-op returning `false` when the
column name already appears in the headers; otherwise write the header
cell at column `len(headers) + 1` remotely, refresh the cache and return
`true`. -/
def add_column (columnName : String) (title : Option String) (s : SheetsState) :
    Bool × SheetsState :=
  let r := get_headers title s
  let headers := r.1
  let s1 := r.2
  if columnName ∈ headers then (false, s1)
  else
    let key := cacheKey title
    let s2 := { s1 with
      remote := assocSet s1.remote key
        (setHeaderCell (remoteTable s1 key) (headers.length + 1) columnName) }
    (true, refresh_cache title s2)

theorem refresh_cache_lookup (title : Option String) (s : SheetsState) :
    assocGet? (refresh_cache title s).cache (cacheKey title) =
      some (remoteTable s (cacheKey title)) := by
  cases title with
  | some t => simp [refresh_cache, cacheKey, assocGet?_set_same]
  | none =>
    show assocGet? (assocSet (assocSet (assocSet s.cache "MainSheet" _) "Users" _)
      "AccessLog" _) "MainSheet" = _
    rw [assocGet?_set_ne _ _ _ _ (by decide), assocGet?_set_ne _ _ _ _ (by decide),
      assocGet?_set_same]
    rfl

theorem get_all_data_cached (title : Option String) (s : SheetsState)
    (t : List Row) (h : assocGet? s.cache (cacheKey title) = some t) :
    get_all_data title s = (t, s) := by
  simp [get_all_data, h]

theorem refresh_cache_remote (title : Option String) (s : SheetsState) :
    (refresh_cache title s).remote = s.remote := by
  cases title <;> rfl

/-- Proof-only abbreviation: a state whose remote table under `key` has
`row` appended (the remote effect of `worksheet.append_row`). -/
def withRemoteAppend (s : SheetsState) (key : String) (row : Row) : SheetsState :=
  { s with remote := assocSet s.remote key (remoteTable s key ++ [row]) }

/-- Proof-only abbreviation: a state whose cache entry under `key` is
replaced by `t`. -/
def withCacheSet (s : SheetsState) (key : String) (t : List Row) : SheetsState :=
  { s with cache := assocSet s.cache key t }

/-- Proof-only abbreviation: a state whose remote table under `key` has
header cell `(1, j)` set to `v` (the remote effect of `add_column`). -/
def withRemoteSetHeader (s : SheetsState) (key : String) (j : Nat) (v : String) :
    SheetsState :=
  { s with remote := assocSet s.remote key (setHeaderCell (remoteTable s key) j v) }

/-- C3: `append_row` followed immediately by `get_all_data` returns a
snapshot whose last element is the stringified copy of the row, and when
the table was already cached no remote re-fetch happens (the fetch counter
is unchanged). -/
theorem append_row_read_your_writes (s : SheetsState) (data : List Val)
    (title : Option String) :
    (get_all_data title (append_row data title s).2).1.getLast? =
      some (data.map Val.str) ∧
    ((assocGet? s.cache (cacheKey title)).isSome →
      (get_all_data title (append_row data title s).2).2.fetches = s.fetches) := by
  rcases hcase : assocGet? s.cache (cacheKey title) with _ | t
  · have h1 : (append_row data title s).2 =
        refresh_cache title (withRemoteAppend s (cacheKey title) (data.map Val.str)) := by
      simp [append_row, hcase, withRemoteAppend]
    have h2 := refresh_cache_lookup title
      (withRemoteAppend s (cacheKey title) (data.map Val.str))
    have h3 : remoteTable (withRemoteAppend s (cacheKey title) (data.map Val.str))
        (cacheKey title) = remoteTable s (cacheKey title) ++ [data.map Val.str] := by
      simp [remoteTable, withRemoteAppend, assocGet?_set_same]
    rw [h3] at h2
    constructor
    · rw [h1, get_all_data_cached _ _ _ h2]
      exact List.getLast?_concat _
    · intro habs
      simp at habs
  · have h1 : (append_row data title s).2 =
        withCacheSet (withRemoteAppend s (cacheKey title) (data.map Val.str))
          (cacheKey title) (t ++ [data.map Val.str]) := by
      simp [append_row, hcase, withRemoteAppend, withCacheSet]
    have h2 : assocGet?
        (withCacheSet (withRemoteAppend s (cacheKey title) (data.map Val.str))
          (cacheKey title) (t ++ [data.map Val.str])).cache (cacheKey title) =
        some (t ++ [data.map Val.str]) := assocGet?_set_same _ _ _
    constructor
    · rw [h1, get_all_data_cached _ _ _ h2]
      exact List.getLast?_concat _
    · intro _
      rw [h1, get_all_data_cached _ _ _ h2]
      simp [withCacheSet, withRemoteAppend]

/-- Demo sheets state for the C3 witness: "MainSheet" already cached. -/
def c3State : SheetsState :=
  { remote := [("MainSheet", [["h"], ["a"]])]
    cache := [("MainSheet", [["h"], ["a"]])]
    fetches := 0 }

/-- Witness for C3 at a concrete cached state and a mixed string/int row. -/
theorem append_row_read_your_writes_witness :
    (get_all_data none (append_row [Val.s "Иван", Val.i 5] none c3State).2).1.getLast? =
      some ["Иван", "5"] ∧
    ((assocGet? c3State.cache "MainSheet").isSome →
      (get_all_data none (append_row [Val.s "Иван", Val.i 5] none c3State).2).2.fetches =
        c3State.fetches) :=
  append_row_read_your_writes c3State [Val.s "Иван", Val.i 5] none

/-- Demo state for C4: "MainSheet" is cached (stale, one row) while the
remote copy has two rows, so a refresh would visibly change the entry. -/
def c4State : SheetsState :=
  { remote := [("MainSheet", [["h"], ["a"]])]
    cache := [("MainSheet", [["h"]])]
    fetches := 0 }

/-- C4 counterexample: updating row 5 of a cached one-row table leaves the
cache entry byte-for-byte unchanged and performs no fetch, and the entry
still differs from the remote table — so no "full refresh of that table's
cache entry from the remote store" happened, refuting the claim at this
input. -/
theorem update_row_oob_counterexample :
    (update_row 5 [Val.s "x"] none c4State).cache = c4State.cache ∧
    (update_row 5 [Val.s "x"] none c4State).fetches = c4State.fetches ∧
    assocGet? (update_row 5 [Val.s "x"] none c4State).cache "MainSheet" ≠
      assocGet? (update_row 5 [Val.s "x"] none c4State).remote "MainSheet" := by
  decide

/-- C4 amended: when the table is cached and `rowNumber` is out of bounds
of the cached snapshot, `update_row` leaves the cache entirely unchanged
and performs no remote fetch (no refresh and no partial update); a full
refresh happens only when the table is not cached at all. -/
theorem update_row_oob_amended (s : SheetsState) (n : Int) (data : List Val)
    (title : Option String) (t : List Row)
    (hc : assocGet? s.cache (cacheKey title) = some t)
    (hoob : ¬ (0 ≤ n - 1 ∧ n - 1 < (t.length : Int))) :
    (update_row n data title s).cache = s.cache ∧
    (update_row n data title s).fetches = s.fetches := by
  have hcond : ¬ (1 ≤ n ∧ n - 1 < (t.length : Int)) := by omega
  constructor <;> simp [update_row, hc, hoob, hcond]

/-- Witness for the amended C4 at the concrete out-of-bounds input. -/
theorem update_row_oob_amended_witness :
    (update_row 5 [Val.s "x"] none c4State).cache = c4State.cache ∧
    (update_row 5 [Val.s "x"] none c4State).fetches = c4State.fetches :=
  update_row_oob_amended c4State 5 [Val.s "x"] none [["h"]] (by decide) (by decide)

theorem setHeaderCell_headD (t : List Row) (x : String) :
    (setHeaderCell t ((t.headD []).length + 1) x).headD [] = t.headD [] ++ [x] := by
  cases t with
  | nil => simp [setHeaderCell, setCell1Based]
  | cons h rest => simp [setHeaderCell, setCell1Based]

/-- C5: `add_column` is idempotent: starting from a state whose cache is in
sync with the remote table and lacks the column, the first call returns
`true`, writes the header remotely and refreshes the cache so the headers
become the old ones plus the new column; the second call returns `false`
and changes nothing at all (no remote write, no fetch); exactly one copy
of the column name ends up in the headers. -/
theorem add_column_idempotent (s : SheetsState) (title : Option String)
    (t : List Row) (x : String)
    (hc : assocGet? s.cache (cacheKey title) = some t)
    (hr : assocGet? s.remote (cacheKey title) = some t)
    (hx : x ∉ t.headD []) :
    (add_column x title s).1 = true ∧
    (add_column x title (add_column x title s).2).1 = false ∧
    (add_column x title (add_column x title s).2).2 = (add_column x title s).2 ∧
    (get_headers title (add_column x title s).2).1 = t.headD [] ++ [x] ∧
    ((get_headers title (add_column x title s).2).1).count x = 1 ∧
    (remoteTable (add_column x title s).2 (cacheKey title)).headD [] =
      t.headD [] ++ [x] := by
  have hga : get_all_data title s = (t, s) := get_all_data_cached _ _ _ hc
  have h1 : add_column x title s =
      (true, refresh_cache title (withRemoteSetHeader s (cacheKey title)
        ((t.headD []).length + 1) x)) := by
    simp only [add_column, get_headers, hga, withRemoteSetHeader, remoteTable]
    rw [if_neg hx]
  have hrem1 : remoteTable (withRemoteSetHeader s (cacheKey title)
      ((t.headD []).length + 1) x) (cacheKey title) =
      setHeaderCell t ((t.headD []).length + 1) x := by
    simp only [remoteTable, withRemoteSetHeader, assocGet?_set_same, Option.getD_some, hr]
  have h2 := refresh_cache_lookup title
    (withRemoteSetHeader s (cacheKey title) ((t.headD []).length + 1) x)
  rw [hrem1] at h2
  have hga1 : get_all_data title (add_column x title s).2 =
      (setHeaderCell t ((t.headD []).length + 1) x, (add_column x title s).2) := by
    rw [h1]
    exact get_all_data_cached _ _ _ h2
  have hh1 : (get_headers title (add_column x title s).2).1 = t.headD [] ++ [x] := by
    simp only [get_headers, hga1]
    exact setHeaderCell_headD t x
  have hmem : x ∈ (get_headers title (add_column x title s).2).1 := by
    rw [hh1]; exact List.mem_append_right _ (List.mem_singleton.mpr rfl)
  have hst1 : (get_headers title (add_column x title s).2).2 = (add_column x title s).2 := by
    simp only [get_headers, hga1]
  have h3 : add_column x title (add_column x title s).2 =
      (false, (add_column x title s).2) := by
    generalize hgen : (add_column x title s).2 = s1
    rw [hgen] at hmem hst1
    simp only [add_column]
    rw [if_pos hmem, hst1]
  refine ⟨by rw [h1], by rw [h3], by rw [h3], hh1, ?_, ?_⟩
  · rw [hh1, List.count_append, List.count_eq_zero.mpr hx]
    simp
  · rw [h1]
    show (remoteTable (refresh_cache title _) (cacheKey title)).headD [] = _
    rw [remoteTable, refresh_cache_remote]
    show (remoteTable (withRemoteSetHeader s (cacheKey title)
      ((t.headD []).length + 1) x) (cacheKey title)).headD [] = _
    rw [hrem1, setHeaderCell_headD]

/-- Demo state for the C5 witness: cache in sync with the remote table,
column "Дата рождения" absent. -/
def c5State : SheetsState :=
  { remote := [("MainSheet", [["Имя", "Фамилия"]])]
    cache := [("MainSheet", [["Имя", "Фамилия"]])]
    fetches := 0 }

/-- Witness for C5 at a concrete synced state. -/
theorem add_column_idempotent_witness :
    (add_column "Дата рождения" none c5State).1 = true ∧
    (add_column "Дата рождения" none (add_column "Дата рождения" none c5State).2).1 = false ∧
    (add_column "Дата рождения" none (add_column "Дата рождения" none c5State).2).2 =
      (add_column "Дата рождения" none c5State).2 ∧
    (get_headers none (add_column "Дата рождения" none c5State).2).1 =
      ["Имя", "Фамилия"] ++ ["Дата рождения"] ∧
    ((get_headers none (add_column "Дата рождения" none c5State).2).1).count "Дата рождения" = 1 ∧
    (remoteTable (add_column "Дата рождения" none c5State).2 "MainSheet").headD [] =
      ["Имя", "Фамилия"] ++ ["Дата рождения"] :=
  add_column_idempotent c5State none [["Имя", "Фамилия"]] "Дата рождения"
    (by decide) (by decide) (by decide)

/-- Decimal digits to a number, or `none` when empty or non-digit. -/
def digitsToNat? (cs : List Char) : Option Nat :=
  if cs ≠ [] ∧ cs.all (fun c => c.isDigit) then
    some (cs.foldl (fun acc c => acc * 10 + (c.toNat - 48)) 0)
  else none

/-- Python `int(s)` on a string: strip surrounding whitespace, allow one
leading sign, then decimal digits; anything else raises (modelled as
`none`).  (Python also accepts digit-group underscores; those never occur
in this data and are not modelled.) -/
def pyInt? (s : String) : Option Int :=
  let cs := ((s.data.dropWhile Char.isWhitespace).reverse.dropWhile
    Char.isWhitespace).reverse
  match cs with
  | '-' :: ds => (digitsToNat? ds).map (fun n => -(n : Int))
  | '+' :: ds => (digitsToNat? ds).map (fun n => (n : Int))
  | ds => (digitsToNat? ds).map (fun n => (n : Int))

/-- The `user_info` dict handed to `check_access`; each field is
`user_info.get(key, '')` (so `""` models an absent key), with `id` already
stringified as `_log_access` does. -/
structure UserInfo where
  id : String
  username : String
  firstName : String
  lastName : String
deriving DecidableEq, Repr

/-- The state `AuthManager` operates on: the "Users" table (as
`_get_users_data` returns it, header row included) and the "AccessLog"
rows.  Appending to `accessLog` models `sheets_client.append_row(...,
"AccessLog")` inside `_log_access`. -/
structure AuthState where
  users : List Row
  accessLog : List Row
deriving DecidableEq, Repr

/-- The audit row built by `AuthManager._log_access`. -/
def logAccessRow (nowIso : String) (info : UserInfo) (status : String) : Row :=
  [nowIso, info.id,
   if info.username ≠ "" then "@" ++ info.username else "",
   info.firstName, info.lastName, status]

/-- `AuthManager._is_user_in_whitelist`: scan the data rows (header
skipped); a row counts when it is non-empty, its id cell is non-empty and
parses (Python `int`) to the user id; parse failures are skipped. -/
def is_user_in_whitelist (userId : Int) (users : List Row) : Bool :=
  (users.drop 1).any (fun r =>
    r ≠ [] ∧ r.headD "" ≠ "" ∧ pyInt? (r.headD "") = some userId)

/-- `AuthManager.check_access`: the main administrator is always granted
(logging `GRANTED_ADMIN`); otherwise whitelist membership decides, logging
`GRANTED` or `DENIED`.  Every branch appends its audit row. -/
def check_access (mainAdminId userId : Int) (info : UserInfo)
    (nowIso : String) (st : AuthState) : Bool × AuthState :=
  if userId = mainAdminId then
    (true, { st with accessLog := st.accessLog ++ [logAccessRow nowIso info "GRANTED_ADMIN"] })
  else
    let hasAccess := is_user_in_whitelist userId st.users
    let status := if hasAccess then "GRANTED" else "DENIED"
    (hasAccess, { st with accessLog := st.accessLog ++ [logAccessRow nowIso info status] })

/-- The loop of `AuthManager.is_admin` over `users[1:]`: rows shorter than
4 cells are skipped; `int(user[0])` raising aborts the whole loop into the
broad handler, which returns `False`. -/
def is_admin_scan (userId : Int) : List Row → Bool
  | [] => false
  | r :: rest =>
    if r.length ≥ 4 then
      match (if r.headD "" ≠ "" then pyInt? (r.headD "") else some 0) with
      | none => false
      | some sid =>
        if sid = userId ∧ r.getD 3 "" = "admin" then true else is_admin_scan userId rest
    else is_admin_scan userId rest

/-- `AuthManager.is_admin`: the main administrator id is always an admin;
otherwise scan the Users rows for a matching id with role "admin". -/
def is_admin (mainAdminId userId : Int) (st : AuthState) : Bool :=
  if userId = mainAdminId then true
  else is_admin_scan userId (st.users.drop 1)

/-- Refusal message of `remove_user` for the main administrator. -/
def msgCannotRemoveAdmin : String := "❌ Нельзя удалить главного администратора!"

/-- Success message of `remove_user`. -/
def msgUserRemoved : String := "✅ Пользователь удален"

/-- Not-found message of `remove_user`. -/
def msgUserNotFound : String := "❌ Пользователь не найден"

/-- The `"❌ Ошибка: ..."` message `remove_user` returns when `int(...)`
raises inside the scan (the appended exception text is abstracted). -/
def msgRemoveError : String := "❌ Ошибка: invalid literal for int()"

/-- Outcome of the backward scan inside `remove_user`. -/
inductive RemoveOutcome where
  | removed (i : Nat)
  | notFound
  | parseError
deriving DecidableEq, Repr

/-- The loop `for i in range(len(users) - 1, 0, -1)` of `remove_user`:
walk the indices downward, skipping empty rows and empty id cells; a
non-parsing id cell raises (aborting into the broad handler); a parsed id
equal to `userId` deletes that row.  The argument is the current index;
index 0 (the header row) is never examined. -/
def remove_scan (userId : Int) (users : List Row) : Nat → RemoveOutcome
  | 0 => .notFound
  | i + 1 =>
    let r := users.getD (i + 1) []
    if r ≠ [] ∧ r.headD "" ≠ "" then
      match pyInt? (r.headD "") with
      | none => .parseError
      | some v => if v = userId then .removed (i + 1) else remove_scan userId users i
    else remove_scan userId users i

/-- `AuthManager.remove_user`: refuse for the main administrator id;
otherwise run the backward scan, deleting the found row
(`worksheet.delete_rows(i + 1)` on the 1-based sheet = erasing 0-based
index `i`). -/
def remove_user (mainAdminId userId : Int) (st : AuthState) : String × AuthState :=
  if userId = mainAdminId then (msgCannotRemoveAdmin, st)
  else
    match remove_scan userId st.users (st.users.length - 1) with
    | .removed i => (msgUserRemoved, { st with users := st.users.eraseIdx i })
    | .notFound => (msgUserNotFound, st)
    | .parseError => (msgRemoveError, st)

/-- C7: every `check_access` call appends exactly one audit row, whose
outcome is `GRANTED_ADMIN` for the main administrator, `GRANTED` for a
whitelisted id and `DENIED` otherwise; the boolean result matches the
branch, and the Users table is untouched. -/
theorem check_access_audits (mainAdminId userId : Int) (info : UserInfo)
    (nowIso : String) (st : AuthState) :
    (check_access mainAdminId userId info nowIso st).2.accessLog =
      st.accessLog ++ [logAccessRow nowIso info
        (if userId = mainAdminId then "GRANTED_ADMIN"
         else if is_user_in_whitelist userId st.users then "GRANTED" else "DENIED")] ∧
    ((check_access mainAdminId userId info nowIso st).1 = true ↔
      (userId = mainAdminId ∨ is_user_in_whitelist userId st.users = true)) ∧
    (check_access mainAdminId userId info nowIso st).2.users = st.users := by
  by_cases hadm : userId = mainAdminId
  · simp [check_access, hadm]
  · rcases hw : is_user_in_whitelist userId st.users <;>
      simp [check_access, hadm, hw]

/-- A Users row matches an id for `remove_user` when it is non-empty, its
id cell is non-empty and parses to the id. -/
def rowMatches (userId : Int) (r : Row) : Prop :=
  r ≠ [] ∧ r.headD "" ≠ "" ∧ pyInt? (r.headD "") = some userId

instance (userId : Int) (r : Row) : Decidable (rowMatches userId r) := by
  unfold rowMatches; infer_instance

theorem remove_scan_removed (userId : Int) (users : List Row) :
    ∀ start j, remove_scan userId users start = .removed j →
      1 ≤ j ∧ j ≤ start ∧ rowMatches userId (users.getD j []) ∧
      ∀ k, j < k → k ≤ start → ¬ rowMatches userId (users.getD k []) := by
  intro start
  induction start with
  | zero => intro j h; simp [remove_scan] at h
  | succ i ih =>
    intro j h
    simp only [remove_scan] at h
    by_cases hg : users.getD (i + 1) [] ≠ [] ∧ (users.getD (i + 1) []).headD "" ≠ ""
    · rw [if_pos hg] at h
      rcases hp : pyInt? ((users.getD (i + 1) []).headD "") with _ | v
      · rw [hp] at h; simp at h
      · rw [hp] at h
        replace h : (if v = userId then RemoveOutcome.removed (i + 1)
            else remove_scan userId users i) = RemoveOutcome.removed j := h
        by_cases hv : v = userId
        · rw [if_pos hv] at h
          cases h
          refine ⟨by omega, by omega, ⟨hg.1, hg.2, by rw [hp, hv]⟩, ?_⟩
          intro k hk1 hk2 _
          omega
        · rw [if_neg hv] at h
          obtain ⟨hj1, hj2, hm, hrest⟩ := ih j h
          refine ⟨hj1, by omega, hm, ?_⟩
          intro k hk1 hk2
          by_cases hki : k = i + 1
          · subst hki
            intro hmk
            have hvv := hp.symm.trans hmk.2.2
            exact hv (by injection hvv)
          · exact hrest k hk1 (by omega)
    · rw [if_neg hg] at h
      obtain ⟨hj1, hj2, hm, hrest⟩ := ih j h
      refine ⟨hj1, by omega, hm, ?_⟩
      intro k hk1 hk2
      by_cases hki : k = i + 1
      · subst hki
        intro hmk
        exact hg ⟨hmk.1, hmk.2.1⟩
      · exact hrest k hk1 (by omega)

theorem remove_scan_notFound (userId : Int) (users : List Row) :
    ∀ start, remove_scan userId users start = .notFound →
      ∀ k, 1 ≤ k → k ≤ start → ¬ rowMatches userId (users.getD k []) := by
  intro start
  induction start with
  | zero => intro _ k hk1 hk2; omega
  | succ i ih =>
    intro h k hk1 hk2
    simp only [remove_scan] at h
    by_cases hg : users.getD (i + 1) [] ≠ [] ∧ (users.getD (i + 1) []).headD "" ≠ ""
    · rw [if_pos hg] at h
      rcases hp : pyInt? ((users.getD (i + 1) []).headD "") with _ | v
      · rw [hp] at h; simp at h
      · rw [hp] at h
        replace h : (if v = userId then RemoveOutcome.removed (i + 1)
            else remove_scan userId users i) = RemoveOutcome.notFound := h
        by_cases hv : v = userId
        · rw [if_pos hv] at h; cases h
        · rw [if_neg hv] at h
          by_cases hki : k = i + 1
          · subst hki
            intro hmk
            have hvv := hp.symm.trans hmk.2.2
            exact hv (by injection hvv)
          · exact ih h k hk1 (by omega)
    · rw [if_neg hg] at h
      by_cases hki : k = i + 1
      · subst hki
        intro hmk
        exact hg ⟨hmk.1, hmk.2.1⟩
      · exact ih h k hk1 (by omega)

/-- C8 counterexample: Users table whose single data row has the
non-numeric id cell "abc".  No row matches id 42, yet `remove_user` does
not return the not-found message the claim requires: `int("abc")` raises
and the broad handler returns the generic error message (the table is
still unchanged). -/
def c8State : AuthState :=
  { users := [["id", "username", "name", "role"], ["abc", "u", "n", "admin"]]
    accessLog := [] }

/-- C8 counterexample theorem (see `c8State`). -/
theorem remove_user_not_found_counterexample :
    (remove_user 526710245 42 c8State).1 ≠ msgUserNotFound ∧
    (remove_user 526710245 42 c8State).1 = msgRemoveError ∧
    (remove_user 526710245 42 c8State).2 = c8State ∧
    (∀ r ∈ c8State.users.drop 1, ¬ rowMatches 42 r) := by
  refine ⟨by decide, by decide, by decide, by decide⟩

/-- C8 amended: the main-administrator id is always an admin and cannot be
removed; for any other id the backward scan deletes the last-inserted
matching row (no later row matches) and reports not-found when the scan
completes without a match — provided every non-empty id cell reached
before a match parses as an integer (a non-parsing cell instead aborts
with an error message and no deletion, as the counterexample shows). -/
theorem remove_user_amended (mainAdminId userId : Int) (st : AuthState)
    (hne : userId ≠ mainAdminId) :
    is_admin mainAdminId mainAdminId st = true ∧
    remove_user mainAdminId mainAdminId st = (msgCannotRemoveAdmin, st) ∧
    (∀ j, remove_scan userId st.users (st.users.length - 1) = .removed j →
      rowMatches userId (st.users.getD j []) ∧
      (∀ k, j < k → k ≤ st.users.length - 1 → ¬ rowMatches userId (st.users.getD k [])) ∧
      remove_user mainAdminId userId st =
        (msgUserRemoved, { st with users := st.users.eraseIdx j })) ∧
    (remove_scan userId st.users (st.users.length - 1) = .notFound →
      (∀ k, 1 ≤ k → k ≤ st.users.length - 1 → ¬ rowMatches userId (st.users.getD k [])) ∧
      remove_user mainAdminId userId st = (msgUserNotFound, st)) := by
  refine ⟨by simp [is_admin], by simp [remove_user], ?_, ?_⟩
  · intro j h
    obtain ⟨_, _, hm, hrest⟩ := remove_scan_removed userId st.users _ j h
    exact ⟨hm, hrest, by simp [remove_user, hne, h]⟩
  · intro h
    exact ⟨remove_scan_notFound userId st.users _ h, by simp [remove_user, hne, h]⟩

/-- Demo Users table for the C8 witness: two rows match id 42; the scan
must delete the later one (0-based index 2). -/
def c8GoodState : AuthState :=
  { users := [["id", "u", "n", "r"], ["42", "a", "A", "user"],
              ["42", "b", "B", "user"], ["7", "c", "C", "user"]]
    accessLog := [] }

/-- Witness for the amended C8 at `c8GoodState` with id 42 and main
administrator 526710245 (who has no Users row). -/
theorem remove_user_amended_witness :
    is_admin 526710245 526710245 c8GoodState = true ∧
    remove_user 526710245 526710245 c8GoodState = (msgCannotRemoveAdmin, c8GoodState) ∧
    rowMatches 42 (c8GoodState.users.getD 2 []) ∧
    remove_user 526710245 42 c8GoodState =
      (msgUserRemoved, { c8GoodState with users := c8GoodState.users.eraseIdx 2 }) := by
  have h := remove_user_amended 526710245 42 c8GoodState (by decide)
  have h3 := h.2.2.1 2 (by decide)
  exact ⟨h.1, h.2.1, h3.1, h3.2.2⟩

/-- Python `str.strip()`: drop whitespace from both ends. -/
def pyStrip (s : String) : String :=
  String.mk (((s.data.dropWhile Char.isWhitespace).reverse.dropWhile
    Char.isWhitespace).reverse)

/-- Python `str.split(sep)` for a one-character separator, over the
character list (`"".split(".") == [""]`, `".".split(".") == ["", ""]`). -/
def splitChars (sep : Char) : List Char → List (List Char)
  | [] => [[]]
  | c :: rest =>
    let r := splitChars sep rest
    if c = sep then [] :: r
    else
      match r with
      | [] => [[c]]
      | g :: gs => (c :: g) :: gs

/-- Gregorian leap year, as `datetime` validates it. -/
def isLeap (y : Nat) : Bool := y % 4 = 0 ∧ (y % 100 ≠ 0 ∨ y % 400 = 0)

/-- Days in a month, as `datetime` validates them. -/
def daysInMonth (y m : Nat) : Nat :=
  if m = 2 then (if isLeap y then 29 else 28)
  else if m = 4 ∨ m = 6 ∨ m = 9 ∨ m = 11 then 30
  else 31

/-- `strptime` `%Y` field: exactly four digits, year at least `MINYEAR`
(1). -/
def parseYear4? (cs : List Char) : Option Nat :=
  match digitsToNat? cs with
  | some y => if cs.length = 4 ∧ 1 ≤ y then some y else none
  | none => none

/-- `strptime` `%m`/`%d` field: one or two digits within `1..hi` (the
calendar bound is checked separately). -/
def parse2? (cs : List Char) (hi : Nat) : Option Nat :=
  match digitsToNat? cs with
  | some v => if cs.length ≤ 2 ∧ 1 ≤ v ∧ v ≤ hi then some v else none
  | none => none

/-- `datetime.strptime(s, fmt)` for the five formats used by
`DataFormatter`: a three-part split on the separator with year, month and
day fields plus the calendar-validity check `datetime` performs. -/
def parseDMY? (s : String) (sep : Char) (ymd : Bool) : Option (Nat × Nat × Nat) :=
  match splitChars sep s.data with
  | [a, b, c] =>
    let ys := if ymd then a else c
    let ms := b
    let ds := if ymd then c else a
    match parseYear4? ys, parse2? ms 12, parse2? ds 31 with
    | some y, some m, some d => if d ≤ daysInMonth y m then some (y, m, d) else none
    | _, _, _ => none
  | _ => none

/-- Zero-pad a number to `w` digits (Python `{:02d}` / `strftime` `%d`). -/
def padNat (w n : Nat) : String :=
  let s := toString n
  String.mk (List.replicate (w - s.data.length) '0') ++ s

/-- `DataFormatter.format_date` on a string cell: try the formats
`%Y-%m-%d`, `%d.%m.%Y`, `%d/%m/%Y`, `%Y/%m/%d`, `%d-%m-%Y` in order and
render the first success as `%d.%m.%Y`; fall back to the unchanged input.
(The `datetime`-instance branch never applies: all cells are strings.) -/
def format_date (s : String) : String :=
  if s = "" then ""
  else
    match [parseDMY? s '-' true, parseDMY? s '.' false, parseDMY? s '/' false,
           parseDMY? s '/' true, parseDMY? s '-' false].findSome? id with
    | some (y, m, d) => padNat 2 d ++ "." ++ padNat 2 m ++ "." ++ toString y
    | none => s

/-- `settings.col_first_name`. -/
def colFirstName : String := "Имя"

/-- `settings.col_last_name`. -/
def colLastName : String := "Фамилия"

/-- `settings.col_birth_date`. -/
def colBirthDate : String := "Дата рождения"

/-- `settings.date_columns`. -/
def dateColumns : List String := ["Дата рождения", "Дата", "Дата регистрации"]

/-- One output cell of `TelegramBot._save_card`: the draft value for the
header (missing → `""`); for a date column whose non-empty value matches
`^\d{1,2}\.\d{1,2}\.\d{4}$` the value is rewritten to
`f"{year}-{month:02d}-{day:02d}"`. -/
def saveCardCell (draft : List (String × String)) (header : String) : String :=
  let value := (assocGet? draft header).getD ""
  if header ∈ dateColumns ∧ value ≠ "" then
    match splitChars '.' value.data with
    | [ds, ms, ys] =>
      if 1 ≤ ds.length ∧ ds.length ≤ 2 ∧ ds.all Char.isDigit ∧
         1 ≤ ms.length ∧ ms.length ≤ 2 ∧ ms.all Char.isDigit ∧
         ys.length = 4 ∧ ys.all Char.isDigit then
        match digitsToNat? ds, digitsToNat? ms, digitsToNat? ys with
        | some d, some m, some y => toString y ++ "-" ++ padNat 2 m ++ "-" ++ padNat 2 d
        | _, _, _ => value
      else value
    | _ => value
  else value

/-- The row `_save_card` assembles: one cell per header, in header
order. -/
def saveCardRow (headers : Row) (draft : List (String × String)) : Row :=
  headers.map (saveCardCell draft)

/-- `TelegramBot._save_card`: read the main-sheet headers, assemble the
row from the draft, append it (`mode == 'CREATE'`) or overwrite
`editing_row` (otherwise), then clear the session.  (`editing_row` is
always set in EDIT mode; a missing value is defaulted to 0, where the
update is an out-of-bounds no-op on the cache.) -/
def save_card (chatId : Int) (sess : Session) (sheets : SheetsState)
    (sessions : SessionStore) : SheetsState × SessionStore :=
  let hr := get_headers none sheets
  let rowData := saveCardRow hr.1 sess.draft
  let s2 :=
    if sess.mode = some "CREATE" then (append_row (rowData.map Val.s) none hr.2).2
    else update_row (sess.editingRow.getD 0) (rowData.map Val.s) none hr.2
  (s2, clear_session sessions chatId)

theorem assocGet?_erase_same {κ α : Type} [DecidableEq κ]
    (l : List (κ × α)) (k : κ) : assocGet? (assocErase l k) k = none := by
  induction l with
  | nil => simp [assocGet?, assocErase]
  | cons p rest ih =>
    by_cases h : p.1 = k
    · rw [show assocErase (p :: rest) k = assocErase rest k by
        simp [assocErase, List.filter, h]]
      exact ih
    · simp [assocErase, List.filter, h, assocGet?, List.find?]

theorem map_valS_str (l : List String) : (l.map Val.s).map Val.str = l := by
  induction l with
  | nil => rfl
  | cons a rest ih => simp [Val.str, ih]

theorem map_valS_str_comp (l : List String) : l.map (Val.str ∘ Val.s) = l := by
  rw [← List.map_map]
  exact map_valS_str l

/-- The shape `re.match(r'^\d{1,2}\.\d{1,2}\.\d{4}$', v)` recognizes, with
the three numeric components. -/
def dmyShape (v : String) (d m y : Nat) : Prop :=
  ∃ ds ms ys, splitChars '.' v.data = [ds, ms, ys] ∧
    1 ≤ ds.length ∧ ds.length ≤ 2 ∧ ds.all Char.isDigit ∧
    1 ≤ ms.length ∧ ms.length ≤ 2 ∧ ms.all Char.isDigit ∧
    ys.length = 4 ∧ ys.all Char.isDigit ∧
    digitsToNat? ds = some d ∧ digitsToNat? ms = some m ∧ digitsToNat? ys = some y

/-- C1: `_save_card` assembles the output row in header order — a header
absent from the draft yields `""`, a draft value of a non-date column (or
an empty value) passes through verbatim, and a non-empty date-column value
matching `D.M.YYYY` becomes `year-MM-DD`; the spec's concrete example
produces `["Иван", "", "1998-05-04"]`; with `mode = CREATE` the row is
appended to the cached and remote main table, with `mode = EDIT` it
overwrites row `editing_row` of the cached table, and the session is
cleared in both cases. -/
theorem save_card_spec (chatId : Int) (sess : Session) (sheets : SheetsState)
    (sessions : SessionStore) (tbl : List Row)
    (hc : assocGet? sheets.cache "MainSheet" = some tbl) :
    (∀ h, assocGet? sess.draft h = none → saveCardCell sess.draft h = "") ∧
    (∀ h v, assocGet? sess.draft h = some v → (h ∉ dateColumns ∨ v = "") →
      saveCardCell sess.draft h = v) ∧
    (∀ h v d m y, assocGet? sess.draft h = some v → h ∈ dateColumns →
      dmyShape v d m y →
      saveCardCell sess.draft h = toString y ++ "-" ++ padNat 2 m ++ "-" ++ padNat 2 d) ∧
    (∀ k, k < (tbl.headD []).length →
      (saveCardRow (tbl.headD []) sess.draft).getD k "" =
        saveCardCell sess.draft ((tbl.headD []).getD k "")) ∧
    (sess.mode = some "CREATE" →
      assocGet? (save_card chatId sess sheets sessions).1.cache "MainSheet" =
        some (tbl ++ [saveCardRow (tbl.headD []) sess.draft]) ∧
      assocGet? (save_card chatId sess sheets sessions).1.remote "MainSheet" =
        some (remoteTable sheets "MainSheet" ++ [saveCardRow (tbl.headD []) sess.draft])) ∧
    (∀ r : Int, sess.mode ≠ some "CREATE" → sess.editingRow = some r →
      1 ≤ r → r - 1 < (tbl.length : Int) →
      assocGet? (save_card chatId sess sheets sessions).1.cache "MainSheet" =
        some (tbl.set (r - 1).toNat (saveCardRow (tbl.headD []) sess.draft))) ∧
    assocGet? (save_card chatId sess sheets sessions).2 chatId = none ∧
    saveCardRow ["Имя", "Фамилия", "Дата рождения"]
      [("Имя", "Иван"), ("Дата рождения", "04.05.1998")] = ["Иван", "", "1998-05-04"] := by
  have hga : get_all_data none sheets = (tbl, sheets) := get_all_data_cached none sheets tbl hc
  have hhr : get_headers none sheets = (tbl.headD [], sheets) := by
    simp [get_headers, hga]
  refine ⟨?_, ?_, ?_, ?_, ?_, ?_, ?_, by decide⟩
  · intro h hnone
    simp [saveCardCell, hnone]
  · intro h v hv hcond
    rcases hcond with hnd | hve
    · simp [saveCardCell, hv, hnd]
    · simp [saveCardCell, hv, hve]
  · intro h v d m y hv hdc hshape
    obtain ⟨ds, ms, ys, hsplit, h1, h2, h3, h4, h5, h6, h7, h8, hd, hm, hy⟩ := hshape
    have hvne : v ≠ "" := by
      intro h0
      subst h0
      simp [splitChars] at hsplit
    simp only [saveCardCell, hv, Option.getD_some]
    rw [if_pos ⟨hdc, hvne⟩, hsplit]
    simp only [hd, hm, hy]
    rw [if_pos ⟨h1, h2, h3, h4, h5, h6, h7, h8⟩]
  · intro k hk
    generalize hgen : tbl.headD [] = hdrs at hk ⊢
    have hsome : hdrs[k]? = some hdrs[k] := List.getElem?_eq_getElem hk
    simp only [saveCardRow, List.getD_eq_getElem?_getD, List.getElem?_map, hsome]
    simp
  · intro hmode
    have h1 : (save_card chatId sess sheets sessions).1 =
        (append_row ((saveCardRow (tbl.headD []) sess.draft).map Val.s) none sheets).2 := by
      simp [save_card, hhr, hmode]
    have h2 : (append_row ((saveCardRow (tbl.headD []) sess.draft).map Val.s) none sheets).2 =
        withCacheSet (withRemoteAppend sheets "MainSheet" (saveCardRow (tbl.headD []) sess.draft))
          "MainSheet" (tbl ++ [saveCardRow (tbl.headD []) sess.draft]) := by
      simp [append_row, cacheKey, hc, withCacheSet, withRemoteAppend, map_valS_str,
        map_valS_str_comp]
    rw [h1, h2]
    constructor
    · exact assocGet?_set_same _ _ _
    · show assocGet? (assocSet sheets.remote "MainSheet" _) "MainSheet" = _
      rw [assocGet?_set_same]
  · intro r hmode her h1r hrlen
    have hsave : (save_card chatId sess sheets sessions).1 =
        update_row r ((saveCardRow (tbl.headD []) sess.draft).map Val.s) none sheets := by
      simp [save_card, hhr, hmode, her]
    rw [hsave]
    simp [update_row, cacheKey, hc, map_valS_str, map_valS_str_comp, hrlen, h1r,
      assocGet?_set_same]
  · simp [save_card, clear_session, assocGet?_erase_same]

/-- Demo sheets state for the C1 witness. -/
def c1Sheets : SheetsState :=
  { remote := [("MainSheet", [["Имя", "Фамилия", "Дата рождения"]])]
    cache := [("MainSheet", [["Имя", "Фамилия", "Дата рождения"]])]
    fetches := 0 }

/-- Demo builder session for the C1 witness, holding the spec's example
draft. -/
def c1Session : Session :=
  { createNewSession 0 "t0" with
    state := "BUILDER_MODE", mode := some "CREATE",
    draft := [("Имя", "Иван"), ("Дата рождения", "04.05.1998")] }

/-- Witness for C1: the spec's example draft saved in CREATE mode appends
`["Иван", "", "1998-05-04"]` and clears the session. -/
theorem save_card_spec_witness :
    assocGet? (save_card 7 c1Session c1Sheets demoStore).1.cache "MainSheet" =
      some ([["Имя", "Фамилия", "Дата рождения"]] ++
        [saveCardRow ["Имя", "Фамилия", "Дата рождения"] c1Session.draft]) ∧
    assocGet? (save_card 7 c1Session c1Sheets demoStore).2 7 = none ∧
    saveCardRow ["Имя", "Фамилия", "Дата рождения"]
      [("Имя", "Иван"), ("Дата рождения", "04.05.1998")] = ["Иван", "", "1998-05-04"] := by
  have h := save_card_spec 7 c1Session c1Sheets demoStore
    [["Имя", "Фамилия", "Дата рождения"]] (by decide)
  exact ⟨(h.2.2.2.2.1 rfl).1, h.2.2.2.2.2.2.1, h.2.2.2.2.2.2.2⟩

theorem assocGet?_append {κ α : Type} [DecidableEq κ]
    (l l2 : List (κ × α)) (k : κ) :
    assocGet? (l ++ l2) k =
      match assocGet? l k with
      | some v => some v
      | none => assocGet? l2 k := by
  induction l with
  | nil => simp [assocGet?]
  | cons p rest ih =>
    by_cases h : p.1 = k
    · simp [assocGet?, List.find?, h]
    · simpa [assocGet?, List.find?, h] using ih

/-- Python `str.upper()` restricted to the alphabets this data uses
(ASCII and Russian Cyrillic, including ё). -/
def pyUpperChar (c : Char) : Char :=
  if 'a' ≤ c ∧ c ≤ 'z' then Char.ofNat (c.toNat - 32)
  else if 'а' ≤ c ∧ c ≤ 'я' then Char.ofNat (c.toNat - 32)
  else if c = 'ё' then 'Ё'
  else c

/-- Python `str.lower()` restricted to the alphabets this data uses. -/
def pyLowerChar (c : Char) : Char :=
  if 'A' ≤ c ∧ c ≤ 'Z' then Char.ofNat (c.toNat + 32)
  else if 'А' ≤ c ∧ c ≤ 'Я' then Char.ofNat (c.toNat + 32)
  else if c = 'Ё' then 'ё'
  else c

/-- Python `str.upper()`. -/
def pyUpper (s : String) : String := String.mk (s.data.map pyUpperChar)

/-- Python `str.lower()`. -/
def pyLower (s : String) : String := String.mk (s.data.map pyLowerChar)

/-- Character-list prefix test (first argument: the candidate prefix). -/
def startsWithChars : List Char → List Char → Bool
  | [], _ => true
  | _ :: _, [] => false
  | p :: ps, c :: cs => if p = c then startsWithChars ps cs else false

/-- Python `s.startswith(pre)`. -/
def pyStartsWith (s pre : String) : Bool := startsWithChars pre.data s.data

/-- The surname cell of `_show_people_by_letter`:
`str(row[surname_idx] or "").strip() if surname_idx != -1 and surname_idx <
len(row) else ""` (the `-1` sentinel is `none`). -/
def surnameOf (surnameIdx : Option Nat) (row : Row) : String :=
  match surnameIdx with
  | some j => if j < row.length then pyStrip (row.getD j "") else ""
  | none => ""

/-- The match guard of both loops of `_show_people_by_letter`: the name
cell exists, is non-empty after stripping, and starts (case-insensitively)
with the chosen letter. -/
def matchRow (nameIdx : Nat) (letter : String) (row : Row) : Bool :=
  if nameIdx < row.length then
    let name := pyStrip (row.getD nameIdx "")
    name ≠ "" ∧ pyStartsWith (pyUpper name) (pyUpper letter)
  else false

/-- The duplicate-detection key `f"{name.lower()}_{surname.lower()}"`. -/
def keyOf (nameIdx : Nat) (surnameIdx : Option Nat) (row : Row) : String :=
  pyLower (pyStrip (row.getD nameIdx "")) ++ "_" ++ pyLower (surnameOf surnameIdx row)

/-- `name_counts[key] = name_counts.get(key, 0) + 1`. -/
def bumpCount (acc : List (String × Nat)) (k : String) : List (String × Nat) :=
  match assocGet? acc k with
  | some n => assocSet acc k (n + 1)
  | none => acc ++ [(k, 1)]

/-- The first loop of `_show_people_by_letter`: count namesakes among the
matching rows (`rows` carries sheet row indices, `enumerate(data[1:],
start=2)`). -/
def nameCounts (nameIdx : Nat) (surnameIdx : Option Nat) (letter : String)
    (rows : List (Nat × Row)) : List (String × Nat) :=
  rows.foldl (fun acc p =>
    if matchRow nameIdx letter p.2 then bumpCount acc (keyOf nameIdx surnameIdx p.2)
    else acc) []

/-- The display label of one entry: base `f"{name} {surname}".strip()`,
replaced by `f"{name} {surname} (р. {birth_date})"` when the namesake
count exceeds 1, the birth column exists, the row has a non-empty birth
cell and `format_date` returns a non-empty string. -/
def displayNameOf (nameIdx : Nat) (surnameIdx birthIdx : Option Nat)
    (counts : List (String × Nat)) (row : Row) : String :=
  let name := pyStrip (row.getD nameIdx "")
  let surname := surnameOf surnameIdx row
  let base := pyStrip (name ++ " " ++ surname)
  match birthIdx with
  | some j =>
    if (assocGet? counts (keyOf nameIdx surnameIdx row)).getD 0 > 1 ∧
        j < row.length ∧ row.getD j "" ≠ "" then
      let birth := format_date (row.getD j "")
      if birth ≠ "" then name ++ " " ++ surname ++ " (р. " ++ birth ++ ")" else base
    else base
  | none => base

/-- One `people` entry (`{'text': ..., 'row': i, 'display': f"... [#i]"}`). -/
def personEntryOf (nameIdx : Nat) (surnameIdx birthIdx : Option Nat)
    (counts : List (String × Nat)) (i : Nat) (row : Row) : PersonEntry :=
  let dn := displayNameOf nameIdx surnameIdx birthIdx counts row
  { text := dn, row := i, display := dn ++ " [#" ++ toString i ++ "]" }

/-- The pure core of `TelegramBot._show_people_by_letter`: resolve the
column indices from the headers (`none` when the name column is missing,
the error path), then build the entry list for the letter. -/
def show_people_by_letter (table : List Row) (letter : String) :
    Option (List PersonEntry) :=
  let headers := table.headD []
  match headers.findIdx? (fun h => h = colFirstName) with
  | none => none
  | some nameIdx =>
    let surnameIdx := headers.findIdx? (fun h => h = colLastName)
    let birthIdx := headers.findIdx? (fun h => h = colBirthDate)
    let rows := List.enumFrom 2 (table.drop 1)
    let counts := nameCounts nameIdx surnameIdx letter rows
    some (rows.filterMap (fun p =>
      if matchRow nameIdx letter p.2 then
        some (personEntryOf nameIdx surnameIdx birthIdx counts p.1 p.2)
      else none))

/-- The namesake count stated directly over the matches, following the
spec's words: the number of matching rows that share the key. -/
def matchKeyCount (nameIdx : Nat) (surnameIdx : Option Nat) (letter : String)
    (rows : List (Nat × Row)) (k : String) : Nat :=
  (rows.filter (fun p => matchRow nameIdx letter p.2)).countP
    (fun p => keyOf nameIdx surnameIdx p.2 = k)

theorem bumpCount_same (acc : List (String × Nat)) (k : String) :
    (assocGet? (bumpCount acc k) k).getD 0 = (assocGet? acc k).getD 0 + 1 := by
  rcases h : assocGet? acc k with _ | n
  · simp only [bumpCount, h]
    rw [assocGet?_append, h]
    simp [assocGet?, List.find?]
  · simp [bumpCount, h, assocGet?_set_same]

theorem bumpCount_ne (acc : List (String × Nat)) (k k' : String) (h : k' ≠ k) :
    assocGet? (bumpCount acc k') k = assocGet? acc k := by
  rcases h2 : assocGet? acc k' with _ | n
  · simp only [bumpCount, h2]
    rw [assocGet?_append]
    rcases h3 : assocGet? acc k with _ | m
    · simp [assocGet?, List.find?, h]
    · simp
  · simp only [bumpCount, h2]
    exact assocGet?_set_ne _ _ _ _ h

theorem nameCounts_aux (nameIdx : Nat) (surnameIdx : Option Nat) (letter : String)
    (k : String) :
    ∀ (rows : List (Nat × Row)) (acc : List (String × Nat)),
    (assocGet? (rows.foldl (fun acc p =>
        if matchRow nameIdx letter p.2 then bumpCount acc (keyOf nameIdx surnameIdx p.2)
        else acc) acc) k).getD 0 =
      (assocGet? acc k).getD 0 + matchKeyCount nameIdx surnameIdx letter rows k := by
  intro rows
  induction rows with
  | nil => intro acc; simp [matchKeyCount]
  | cons p rest ih =>
    intro acc
    by_cases hm : matchRow nameIdx letter p.2
    · by_cases hk : keyOf nameIdx surnameIdx p.2 = k
      · simp only [List.foldl_cons, hm, if_true, ih, hk, bumpCount_same]
        simp [matchKeyCount, List.filter_cons, hm, List.countP_cons, hk]
        omega
      · simp only [List.foldl_cons, hm, if_true, ih, bumpCount_ne _ _ _ hk]
        simp [matchKeyCount, List.filter_cons, hm, List.countP_cons, hk]
    · simp only [List.foldl_cons, hm, if_false, ih]
      simp [matchKeyCount, List.filter_cons, hm]

theorem nameCounts_lookup (nameIdx : Nat) (surnameIdx : Option Nat)
    (letter : String) (rows : List (Nat × Row)) (k : String) :
    (assocGet? (nameCounts nameIdx surnameIdx letter rows) k).getD 0 =
      matchKeyCount nameIdx surnameIdx letter rows k := by
  have h := nameCounts_aux nameIdx surnameIdx letter k rows []
  simpa [nameCounts, assocGet?] using h

/-- Spec-side display rule for one matched row, with the disambiguation
condition stated directly as "this row's (first name, surname) pair occurs
more than once among the matches" (`matchKeyCount`), per the spec's words;
to be compared with the dict-based `displayNameOf` the code computes. -/
def specDisplay (nameIdx : Nat) (surnameIdx birthIdx : Option Nat) (letter : String)
    (rows : List (Nat × Row)) (row : Row) : String :=
  let name := pyStrip (row.getD nameIdx "")
  let surname := surnameOf surnameIdx row
  let base := pyStrip (name ++ " " ++ surname)
  match birthIdx with
  | some j =>
    if 1 < matchKeyCount nameIdx surnameIdx letter rows (keyOf nameIdx surnameIdx row) ∧
        j < row.length ∧ row.getD j "" ≠ "" then
      let birth := format_date (row.getD j "")
      if birth ≠ "" then name ++ " " ++ surname ++ " (р. " ++ birth ++ ")" else base
    else base
  | none => base

theorem displayNameOf_eq_spec (nameIdx : Nat) (surnameIdx birthIdx : Option Nat)
    (letter : String) (rows : List (Nat × Row)) (row : Row) :
    displayNameOf nameIdx surnameIdx birthIdx
      (nameCounts nameIdx surnameIdx letter rows) row =
      specDisplay nameIdx surnameIdx birthIdx letter rows row := by
  cases birthIdx with
  | none => rfl
  | some j =>
    simp only [displayNameOf, specDisplay, nameCounts_lookup]

/-- Demo table for the C6 counterexample: two matching rows share the
(first name, surname) pair "Anna Ivanova", but the second one has an empty
birth-date cell. -/
def c6BadTable : List Row :=
  [["Имя", "Фамилия", "Дата рождения"],
   ["Anna", "Ivanova", "1990-05-01"],
   ["Anna", "Ivanova", ""]]

/-- C6 counterexample: both entries share the (first name, surname) pair
(their duplicate keys are equal), yet the second is rendered as plain
"Anna Ivanova" with no birth-date suffix — the code only appends the date
when the row's birth cell is non-empty, refuting the claim's "every entry
that shares its pair ... is rendered with its birth date appended". -/
theorem show_people_counterexample :
    (show_people_by_letter c6BadTable "A").map (List.map PersonEntry.text) =
      some ["Anna Ivanova (р. 01.05.1990)", "Anna Ivanova"] ∧
    keyOf 0 (some 1) (c6BadTable.getD 1 []) = keyOf 0 (some 1) (c6BadTable.getD 2 []) := by
  constructor
  · decide
  · decide

/-- C6 amended: the rendered list consists of exactly the matching rows in
order, where an entry gets its birth date appended precisely when its
(first name, surname) pair occurs more than once among the matches AND its
own birth-date cell is present and non-empty (with `format_date` rendering
it non-empty); entries with a unique pair, or with an empty or missing
birth-date cell, are rendered without the suffix. -/
theorem show_people_disambiguation (table : List Row) (letter : String)
    (nameIdx : Nat)
    (hn : (table.headD []).findIdx? (fun h => h = colFirstName) = some nameIdx) :
    show_people_by_letter table letter = some
      ((List.enumFrom 2 (table.drop 1)).filterMap (fun p =>
        if matchRow nameIdx letter p.2 then
          some { text := specDisplay nameIdx
                   ((table.headD []).findIdx? (fun h => h = colLastName))
                   ((table.headD []).findIdx? (fun h => h = colBirthDate)) letter
                   (List.enumFrom 2 (table.drop 1)) p.2
                 row := p.1
                 display := specDisplay nameIdx
                   ((table.headD []).findIdx? (fun h => h = colLastName))
                   ((table.headD []).findIdx? (fun h => h = colBirthDate)) letter
                   (List.enumFrom 2 (table.drop 1)) p.2 ++ " [#" ++ toString p.1 ++ "]" }
        else none)) := by
  simp only [show_people_by_letter, hn]
  congr 1
  apply List.filterMap_congr
  intro p _
  by_cases hm : matchRow nameIdx letter p.2
  · simp only [hm, if_true, personEntryOf, displayNameOf_eq_spec]
  · simp [hm]

/-- Demo table for the C6 witness: the spec's example — two "Anna
Ivanova" records with birth dates, one unique "Anna Petrova". -/
def c6GoodTable : List Row :=
  [["Имя", "Фамилия", "Дата рождения"],
   ["Anna", "Ivanova", "1990-05-01"],
   ["Anna", "Ivanova", "1995-03-02"],
   ["Anna", "Petrova", "1992-01-01"]]

/-- Witness for the amended C6 at the spec's example table: both namesakes
get their birth dates appended, the unique entry does not. -/
theorem show_people_disambiguation_witness :
    (show_people_by_letter c6GoodTable "A").map (List.map PersonEntry.text) =
      some ["Anna Ivanova (р. 01.05.1990)", "Anna Ivanova (р. 02.03.1995)",
        "Anna Petrova"] := by
  have h := show_people_disambiguation c6GoodTable "A" 0 (by decide)
  rw [h]
  decide

/-- One birthday entry
(`{'name': ..., 'day': d, 'year': y, 'row_index': i}`); day and year are
Python ints (possibly negative for pathological cells). -/
structure BirthdayEntry where
  name : String
  day : Int
  year : Int
  rowIndex : Nat
deriving DecidableEq, Repr

/-- The per-row body of `get_birthdays_data_by_month`: guard the birth
column, strip the cell, normalize it with `format_date`, split the result
on dots and convert the three parts with Python `int`
(`d, m, y = map(int, formatted.split('.'))`); any failure is swallowed by
the `except: pass` (modelled as `none`). -/
def birthdayEntryOf? (nameIdx surnameIdx birthIdx : Nat) (i : Nat) (row : Row) :
    Option (Int × BirthdayEntry) :=
  if birthIdx < row.length then
    let raw := pyStrip (row.getD birthIdx "")
    if raw ≠ "" then
      match splitChars '.' (format_date raw).data with
      | [a, b, c] =>
        match pyInt? (String.mk a), pyInt? (String.mk b), pyInt? (String.mk c) with
        | some d, some m, some y =>
          let name := if nameIdx < row.length then pyStrip (row.getD nameIdx "") else ""
          let surname :=
            if surnameIdx < row.length then pyStrip (row.getD surnameIdx "") else ""
          some (m, { name := pyStrip (name ++ " " ++ surname), day := d, year := y,
                     rowIndex := i })
        | _, _, _ => none
      | _ => none
    else none
  else none

/-- `birthdays[month].append(person_data)` with
`if month not in birthdays: birthdays[month] = []`. -/
def bumpMonth (acc : List (Int × List BirthdayEntry)) (m : Int) (e : BirthdayEntry) :
    List (Int × List BirthdayEntry) :=
  match assocGet? acc m with
  | some l => assocSet acc m (l ++ [e])
  | none => acc ++ [(m, [e])]

/-- One iteration of the row loop of `get_birthdays_data_by_month`. -/
def birthdayStep (nameIdx surnameIdx birthIdx : Nat)
    (acc : List (Int × List BirthdayEntry)) (p : Nat × Row) :
    List (Int × List BirthdayEntry) :=
  match birthdayEntryOf? nameIdx surnameIdx birthIdx p.1 p.2 with
  | some q => bumpMonth acc q.1 q.2
  | none => acc

/-- Stable insertion by day (strictly-smaller goes left, so equal days
keep their original order, as Python's stable sort does). -/
def insertByDay (e : BirthdayEntry) : List BirthdayEntry → List BirthdayEntry
  | [] => [e]
  | x :: xs => if e.day < x.day then e :: x :: xs else x :: insertByDay e xs

/-- `birthdays[month].sort(key=lambda x: x['day'])`: a stable ascending
sort by day. -/
def sortByDay (l : List BirthdayEntry) : List BirthdayEntry :=
  l.foldl (fun acc e => insertByDay e acc) []

/-- `GoogleSheetsClient.get_birthdays_data_by_month`: empty for a table of
at most a header; empty when any of the three columns is missing
(`ValueError` branch); otherwise group the data rows by the parsed month
and sort each month's list by day. -/
def get_birthdays_data_by_month (table : List Row) :
    List (Int × List BirthdayEntry) :=
  if table.length ≤ 1 then []
  else
    let headers := table.headD []
    match headers.findIdx? (fun h => h = colFirstName),
      headers.findIdx? (fun h => h = colLastName),
      headers.findIdx? (fun h => h = colBirthDate) with
    | some nameIdx, some surnameIdx, some birthIdx =>
      ((List.enumFrom 2 (table.drop 1)).foldl
        (birthdayStep nameIdx surnameIdx birthIdx) []).map
        (fun p => (p.1, sortByDay p.2))
    | _, _, _ => []

/-- The list stored under month `m` (`birthdays.get(m, [])`). -/
def monthOf (l : List (Int × List BirthdayEntry)) (m : Int) : List BirthdayEntry :=
  (assocGet? l m).getD []

/-- The entries the row loop sends to month `m`, in encounter order. -/
def monthHits (nameIdx surnameIdx birthIdx : Nat) (m : Int)
    (l : List (Nat × Row)) : List BirthdayEntry :=
  l.filterMap (fun p =>
    match birthdayEntryOf? nameIdx surnameIdx birthIdx p.1 p.2 with
    | some q => if q.1 = m then some q.2 else none
    | none => none)

theorem mem_insertByDay (e y : BirthdayEntry) (l : List BirthdayEntry) :
    y ∈ insertByDay e l ↔ y = e ∨ y ∈ l := by
  induction l with
  | nil => simp [insertByDay]
  | cons x xs ih =>
    by_cases h : e.day < x.day
    · simp only [insertByDay, if_pos h]
      simp [List.mem_cons]
    · simp only [insertByDay, if_neg h]
      simp [List.mem_cons, ih]
      tauto

theorem insertByDay_sorted (e : BirthdayEntry) (l : List BirthdayEntry)
    (h : List.Pairwise (fun a b => a.day ≤ b.day) l) :
    List.Pairwise (fun a b => a.day ≤ b.day) (insertByDay e l) := by
  induction l with
  | nil => simp [insertByDay]
  | cons x xs ih =>
    rcases List.pairwise_cons.mp h with ⟨hx, hxs⟩
    by_cases hcmp : e.day < x.day
    · simp only [insertByDay, if_pos hcmp]
      refine List.pairwise_cons.mpr ⟨?_, h⟩
      intro y hy
      rcases List.mem_cons.mp hy with rfl | hy2
      · omega
      · have := hx y hy2
        omega
    · simp only [insertByDay, if_neg hcmp]
      refine List.pairwise_cons.mpr ⟨?_, ih hxs⟩
      intro y hy
      rcases (mem_insertByDay e y xs).mp hy with rfl | hy2
      · omega
      · exact hx y hy2

theorem sortByDay_sorted (l : List BirthdayEntry) :
    List.Pairwise (fun a b => a.day ≤ b.day) (sortByDay l) := by
  have haux : ∀ (l2 : List BirthdayEntry) (acc : List BirthdayEntry),
      List.Pairwise (fun a b => a.day ≤ b.day) acc →
      List.Pairwise (fun a b => a.day ≤ b.day)
        (l2.foldl (fun acc e => insertByDay e acc) acc) := by
    intro l2
    induction l2 with
    | nil => intro acc h; simpa using h
    | cons e rest ih => intro acc h; exact ih _ (insertByDay_sorted e acc h)
  exact haux l [] (by simp)

theorem mem_sortByDay (l : List BirthdayEntry) (y : BirthdayEntry) :
    y ∈ sortByDay l ↔ y ∈ l := by
  have haux : ∀ (l2 : List BirthdayEntry) (acc : List BirthdayEntry),
      (y ∈ l2.foldl (fun acc e => insertByDay e acc) acc ↔ y ∈ acc ∨ y ∈ l2) := by
    intro l2
    induction l2 with
    | nil => intro acc; simp
    | cons e rest ih =>
      intro acc
      rw [List.foldl_cons, ih]
      rw [mem_insertByDay]
      simp [List.mem_cons]
      tauto
  simpa [sortByDay] using haux l []

theorem assocGet?_map_snd {κ α β : Type} [DecidableEq κ]
    (f : α → β) (l : List (κ × α)) (k : κ) :
    assocGet? (l.map (fun p => (p.1, f p.2))) k = (assocGet? l k).map f := by
  induction l with
  | nil => simp [assocGet?]
  | cons p rest ih =>
    by_cases h : p.1 = k
    · simp [assocGet?, List.find?, h]
    · simpa [assocGet?, List.find?, h] using ih

theorem assocGet?_singleton_same {κ α : Type} [DecidableEq κ] (k : κ) (v : α) :
    assocGet? [(k, v)] k = some v := by
  simp [assocGet?, List.find?]

theorem assocGet?_singleton_ne {κ α : Type} [DecidableEq κ] (k k' : κ) (v : α)
    (h : k' ≠ k) : assocGet? [(k', v)] k = none := by
  simp [assocGet?, List.find?, h]

theorem monthOf_bump_same (acc : List (Int × List BirthdayEntry)) (m : Int)
    (e : BirthdayEntry) : monthOf (bumpMonth acc m e) m = monthOf acc m ++ [e] := by
  rcases h : assocGet? acc m with _ | l
  · simp [bumpMonth, h, monthOf, assocGet?_append, assocGet?_singleton_same]
  · simp [bumpMonth, h, monthOf, assocGet?_set_same]

theorem monthOf_bump_ne (acc : List (Int × List BirthdayEntry)) (m m' : Int)
    (e : BirthdayEntry) (h : m' ≠ m) :
    monthOf (bumpMonth acc m' e) m = monthOf acc m := by
  rcases h2 : assocGet? acc m' with _ | l
  · simp only [bumpMonth, h2, monthOf, assocGet?_append]
    rcases h3 : assocGet? acc m with _ | l2 <;>
      simp [h3, assocGet?_singleton_ne _ _ _ h]
  · simp only [bumpMonth, h2]
    rw [monthOf, assocGet?_set_ne _ _ _ _ h, monthOf]

theorem monthOf_fold (n s b : Nat) (m : Int) :
    ∀ (l : List (Nat × Row)) (acc : List (Int × List BirthdayEntry)),
    monthOf (l.foldl (birthdayStep n s b) acc) m =
      monthOf acc m ++ monthHits n s b m l := by
  intro l
  induction l with
  | nil => intro acc; simp [monthHits]
  | cons p rest ih =>
    intro acc
    rw [List.foldl_cons, ih]
    rcases hq : birthdayEntryOf? n s b p.1 p.2 with _ | q
    · simp [birthdayStep, hq, monthHits, List.filterMap_cons]
    · by_cases hm : q.1 = m
      · simp only [birthdayStep, hq]
        rw [hm, monthOf_bump_same]
        simp [monthHits, List.filterMap_cons, hq, hm]
      · simp only [birthdayStep, hq]
        rw [monthOf_bump_ne _ _ _ _ hm]
        simp [monthHits, List.filterMap_cons, hq, hm]

theorem birthdayEntryOf?_rowIndex (n s b i : Nat) (row : Row) (m : Int)
    (e : BirthdayEntry)
    (h : birthdayEntryOf? n s b i row = some (m, e)) : e.rowIndex = i := by
  simp only [birthdayEntryOf?] at h
  repeat' split at h
  all_goals simp_all
  all_goals (rcases h with ⟨h1, h2⟩; rw [← h2])

theorem mem_enumFrom_eq {α : Type} :
    ∀ (l : List α) (n : Nat) (p : Nat × α), p ∈ List.enumFrom n l →
      n ≤ p.1 ∧ p.1 - n < l.length ∧ l[p.1 - n]? = some p.2 := by
  intro l
  induction l with
  | nil => intro n p hp; simp [List.enumFrom] at hp
  | cons x xs ih =>
    intro n p hp
    rw [List.enumFrom] at hp
    rcases List.mem_cons.mp hp with rfl | hp2
    · simp
    · obtain ⟨h1, h2, h3⟩ := ih (n + 1) p hp2
      refine ⟨by omega, by simp only [List.length_cons]; omega, ?_⟩
      have hidx : p.1 - n = (p.1 - (n + 1)) + 1 := by omega
      rw [hidx]
      simpa using h3

/-- C9 amended: within each month the entries are sorted by day ascending,
and every entry in any month's list comes from a data row whose birth cell
survives the numeric re-parse (the `format_date` output splits on dots
into three Python ints); consequently a row for which that re-parse fails
— including every string in a recognized format shape that is
calendar-invalid, like "1990-02-30" — contributes to no month's list, and
no error escapes.  (The claim's full universal fails: a dotted
calendar-invalid string like "30.02.1990" falls through `format_date`
unchanged, re-parses, and IS included — see the counterexample.) -/
theorem birthdays_amended (table : List Row) (nameIdx surnameIdx birthIdx : Nat)
    (hn : (table.headD []).findIdx? (fun h => h = colFirstName) = some nameIdx)
    (hs : (table.headD []).findIdx? (fun h => h = colLastName) = some surnameIdx)
    (hb : (table.headD []).findIdx? (fun h => h = colBirthDate) = some birthIdx) :
    (∀ m, List.Pairwise (fun a b => a.day ≤ b.day)
      (monthOf (get_birthdays_data_by_month table) m)) ∧
    (∀ m e, e ∈ monthOf (get_birthdays_data_by_month table) m →
      2 ≤ e.rowIndex ∧ e.rowIndex - 2 < (table.drop 1).length ∧
      birthdayEntryOf? nameIdx surnameIdx birthIdx e.rowIndex
        ((table.drop 1).getD (e.rowIndex - 2) []) = some (m, e)) ∧
    (∀ p, birthdayEntryOf? nameIdx surnameIdx birthIdx (p + 2)
        ((table.drop 1).getD p []) = none →
      ∀ m e, e ∈ monthOf (get_birthdays_data_by_month table) m →
        e.rowIndex ≠ p + 2) := by
  by_cases hlen : table.length ≤ 1
  · have hg : get_birthdays_data_by_month table = [] := by
      simp [get_birthdays_data_by_month, hlen]
    refine ⟨?_, ?_, ?_⟩
    · intro m; simp [hg, monthOf, assocGet?]
    · intro m e he; simp [hg, monthOf, assocGet?] at he
    · intro p hp m e he; simp [hg, monthOf, assocGet?] at he
  · have hg : get_birthdays_data_by_month table =
        ((List.enumFrom 2 (table.drop 1)).foldl
          (birthdayStep nameIdx surnameIdx birthIdx) []).map
          (fun p => (p.1, sortByDay p.2)) := by
      simp only [get_birthdays_data_by_month]
      rw [if_neg hlen, hn, hs, hb]
    have hmonth : ∀ m, monthOf (get_birthdays_data_by_month table) m =
        sortByDay (monthHits nameIdx surnameIdx birthIdx m
          (List.enumFrom 2 (table.drop 1))) := by
      intro m
      have h1 := monthOf_fold nameIdx surnameIdx birthIdx m
        (List.enumFrom 2 (table.drop 1)) []
      have h2 : monthOf ([] : List (Int × List BirthdayEntry)) m = [] := by
        simp [monthOf, assocGet?]
      rw [h2, List.nil_append] at h1
      rw [hg, monthOf, assocGet?_map_snd]
      rw [monthOf] at h1
      rcases hx : assocGet? ((List.enumFrom 2 (table.drop 1)).foldl
          (birthdayStep nameIdx surnameIdx birthIdx) []) m with _ | lmon
      · rw [hx] at h1
        simp only [Option.getD_none] at h1
        rw [← h1]
        simp [sortByDay]
      · rw [hx] at h1
        simp only [Option.getD_some] at h1
        simp [h1]
    have hsrc : ∀ m e, e ∈ monthOf (get_birthdays_data_by_month table) m →
        2 ≤ e.rowIndex ∧ e.rowIndex - 2 < (table.drop 1).length ∧
        birthdayEntryOf? nameIdx surnameIdx birthIdx e.rowIndex
          ((table.drop 1).getD (e.rowIndex - 2) []) = some (m, e) := by
      intro m e he
      rw [hmonth, mem_sortByDay] at he
      obtain ⟨p, hp, heq⟩ := List.mem_filterMap.mp he
      rcases hq : birthdayEntryOf? nameIdx surnameIdx birthIdx p.1 p.2 with _ | q
      · rw [hq] at heq
        simp at heq
      · rw [hq] at heq
        replace heq : (if q.1 = m then some q.2 else none) = some e := heq
        by_cases hqm : q.1 = m
        · rw [if_pos hqm] at heq
          injection heq with heq2
          have hqme : q = (m, e) := by
            cases q
            simp only at hqm heq2
            rw [hqm, heq2]
          rw [hqme] at hq
          have hri : e.rowIndex = p.1 :=
            birthdayEntryOf?_rowIndex _ _ _ _ _ _ _ hq
          obtain ⟨h1, h2, h3⟩ := mem_enumFrom_eq (table.drop 1) 2 p hp
          have hgd : (table.drop 1).getD (e.rowIndex - 2) [] = p.2 := by
            rw [hri, List.getD_eq_getElem?_getD, h3]
            rfl
          refine ⟨by omega, by omega, ?_⟩
          rw [hgd, hri]
          exact hq
        · rw [if_neg hqm] at heq
          cases heq
    refine ⟨?_, hsrc, ?_⟩
    · intro m
      rw [hmonth]
      exact sortByDay_sorted _
    · intro p hpnone m e he hri
      obtain ⟨h1, h2, h3⟩ := hsrc m e he
      rw [hri] at h3
      simp only [Nat.add_sub_cancel] at h3
      rw [hpnone] at h3
      cases h3

/-- Demo table for the C9 counterexample: birth cell "30.02.1990" is a
calendar-invalid date (February has no 30th). -/
def c9DottedTable : List Row :=
  [["Имя", "Фамилия", "Дата рождения"], ["X", "Y", "30.02.1990"]]

/-- C9 counterexample: "30.02.1990" fails ALL five recognized date formats
(`strptime` rejects the invalid calendar date, so `format_date` falls back
to the raw string), yet the birthday index does NOT exclude the record: the
raw string splits on dots into three ints and the entry lands in month 2 —
refuting the claim that every record whose cell fails to parse as a
recognized format is excluded from every month. -/
theorem birthdays_counterexample :
    ([parseDMY? "30.02.1990" '-' true, parseDMY? "30.02.1990" '.' false,
      parseDMY? "30.02.1990" '/' false, parseDMY? "30.02.1990" '/' true,
      parseDMY? "30.02.1990" '-' false].all (fun r => r.isNone)) = true ∧
    format_date "30.02.1990" = "30.02.1990" ∧
    monthOf (get_birthdays_data_by_month c9DottedTable) 2 =
      [{ name := "X Y", day := 30, year := 1990, rowIndex := 2 }] := by
  refine ⟨by decide, by decide, by decide⟩

/-- Demo table for the C9 witness: row 2 has the ISO-shaped
calendar-invalid cell "1990-02-30", row 3 a valid date. -/
def c9IsoTable : List Row :=
  [["Имя", "Фамилия", "Дата рождения"],
   ["X", "Y", "1990-02-30"],
   ["A", "B", "04.05.1998"]]

/-- Witness for the amended C9: month 5 of the demo table is sorted by
day, and the "1990-02-30" row (sheet row 2) appears in no month's list. -/
theorem birthdays_amended_witness :
    List.Pairwise (fun a b => a.day ≤ b.day)
      (monthOf (get_birthdays_data_by_month c9IsoTable) 5) ∧
    (∀ m e, e ∈ monthOf (get_birthdays_data_by_month c9IsoTable) m →
      e.rowIndex ≠ 2) := by
  have h := birthdays_amended c9IsoTable 0 1 2 (by decide) (by decide) (by decide)
  exact ⟨h.1 5, fun m e he => h.2.2 0 (by decide) m e he⟩
